import Mathlib

/-!
Verification of the orchestration layer of the riemannian-nlp repository
(`riemann/embed_experiment.py` and `riemann/setup.py`).

The Python code is shallowly embedded: the `embed` command is modelled as an
executable function that, given the configuration, a failure model (which
external calls raise), the loaded dataset and the messages left in the log
queue, returns the trace of observable actions, the list of spawned worker
processes, whether an exception propagates out, and the final dataset state.
Pure helpers (`get_embed_manifold`, the `tensorboard_dir` construction, the
`setup.py` extension description) are embedded as pure functions.
-/

namespace Riemann

/-- A date-time value, as produced by `datetime.now()`; only the components
used by the format string `-%m:%d:%Y-%H:%M:%S` are modelled. -/
structure DateTime where
  month : Nat
  day : Nat
  year : Nat
  hour : Nat
  minute : Nat
  second : Nat
  deriving DecidableEq, Repr

/-- Zero padding to two digits, as `strftime` does for `%m`, `%d`, `%H`,
`%M`, `%S`. -/
def pad2 (n : Nat) : String :=
  if n < 10 then "0" ++ toString n else toString n

/-- Zero padding to four digits, as `strftime` does for `%Y`. -/
def pad4 (n : Nat) : String :=
  if n < 10 then "000" ++ toString n
  else if n < 100 then "00" ++ toString n
  else if n < 1000 then "0" ++ toString n
  else toString n

/-- `now.strftime("-%m:%d:%Y-%H:%M:%S")` from `embed_experiment.py` line 69. -/
def strftimeRun (t : DateTime) : String :=
  "-" ++ pad2 t.month ++ ":" ++ pad2 t.day ++ ":" ++ pad4 t.year ++ "-"
    ++ pad2 t.hour ++ ":" ++ pad2 t.minute ++ ":" ++ pad2 t.second

/-- The `tensorboard_dir` value computed by the `config` function
(`embed_experiment.py` lines 66-69): an f-string with the manifold name,
dimension and learning rate, an extra comma-joined submanifold list for
`"Product"`, and the `strftime` timestamp appended. -/
def tensorboard_dir (manifold_name : String) (dimension : Nat)
    (learning_rate : Nat) (submanifold_names : List String)
    (now : DateTime) : String :=
  let base := "runs/" ++ manifold_name ++ "-" ++ toString dimension ++ "D-LR"
    ++ toString learning_rate
  let base :=
    if manifold_name = "Product" then
      base ++ "-Subs[" ++ String.intercalate "," submanifold_names ++ "]"
    else base
  base ++ strftimeRun now

/-- A sacred observer; `FileStorageObserver.create(basedir)` is modelled by
`fileStorage basedir`. -/
inductive Observer
  | fileStorage (basedir : String)
  deriving DecidableEq, Repr

/-- `ex.observers` after line 29 of `embed_experiment.py`: the experiment
starts with no observers and a file storage observer on `"experiments"` is
appended. -/
def ex_observers : List Observer :=
  [] ++ [Observer.fileStorage "experiments"]

/-- `s` contains `pat` as a contiguous substring. -/
def strContains (s pat : String) : Prop :=
  ∃ a b : String, s = a ++ pat ++ b

/-- A geoopt manifold as assembled by `get_embed_manifold`.  A `Product`
manifold holds the list of recursively built submanifolds — each of which is
`Option Manifold` because in Python the recursive call returns `None` on an
unrecognized name and that `None` is put into the list unchecked — together
with the submanifold shapes array. -/
inductive Manifold
  | euclidean
  | poincareBall
  | sphere
  | product (subs : List (Option Manifold)) (shapes : List (List Nat))

/-- `get_embed_manifold` (`embed_experiment.py` lines 71-83).  Through
the sacred capture mechanism the recursive call of `get_embed_manifold`
receives the same configured `submanifold_names` and `submanifold_shapes`,
so a `"Product"` entry inside `submanifold_names` would recurse forever;
`fuel` bounds the Python call stack and the outer `Option` is `none` exactly
when the call would not terminate.  The inner `Option Manifold` is the
Python return value of the function (`None` for an unrecognized name). -/
def get_embed_manifold (fuel : Nat) (manifold_name : String)
    (submanifold_names : List String) (submanifold_shapes : List (List Nat)) :
    Option (Option Manifold) :=
  match fuel with
  | 0 => none
  | fuel + 1 =>
    if manifold_name = "Euclidean" then some (some Manifold.euclidean)
    else if manifold_name = "PoincareBall" then some (some Manifold.poincareBall)
    else if manifold_name = "Sphere" then some (some Manifold.sphere)
    else if manifold_name = "Product" then
      match submanifold_names.mapM
          (fun name => get_embed_manifold fuel name submanifold_names submanifold_shapes) with
      | none => none
      | some subs => some (some (Manifold.product subs submanifold_shapes))
    else some none

end Riemann

namespace Setup

/-- A `setuptools.Extension` as constructed in `setup.py` lines 17-23. -/
structure Extension where
  name : String
  sources : List String
  include_dirs : List String
  extra_compile_args : List String
  language : String
  deriving DecidableEq, Repr

/-- `extra_compile_args` (`setup.py` lines 10-15): always `-std=c++11`, plus
`-stdlib=libc++` when the detected compiler is Apple LLVM. -/
def extra_compile_args (appleLLVM : Bool) : List String :=
  ["-std=c++11"] ++ (if appleLLVM then ["-stdlib=libc++"] else [])

/-- The `extensions` list of `setup.py` lines 17-23; `numpy.get_include()` is
modelled by the abstract path parameter `numpyInclude`. -/
def extensions (appleLLVM : Bool) (numpyInclude : String) : List Extension :=
  [{ name := "data.graph_dataset"
     sources := ["data/graph_dataset.pyx"]
     include_dirs := [numpyInclude, "."]
     extra_compile_args := extra_compile_args appleLLVM
     language := "c++" }]

/-- The result of `cythonize`: the compiled modules, remembering which
extensions they were produced from. -/
structure CythonModules where
  fromExtensions : List Extension
  deriving DecidableEq, Repr

/-- `cythonize(extensions)` (`setup.py` line 26). -/
def cythonize (exts : List Extension) : CythonModules :=
  { fromExtensions := exts }

/-- The keyword arguments of the `setup(...)` call, lines 29-42. -/
structure SetupArgs where
  name : String
  version : String
  packages : List String
  package_dir : List (String × String)
  ext_modules : CythonModules
  include_dirs : String
  install_requires : List String
  deriving DecidableEq, Repr

/-- The `setup(...)` call of `setup.py` lines 29-42. -/
def setup_call (appleLLVM : Bool) (numpyInclude : String) : SetupArgs :=
  { name := "riemanniannlp"
    version := "0.1"
    packages := ["riemann"]
    package_dir := [("riemann", ".")]
    ext_modules := cythonize (extensions appleLLVM numpyInclude)
    include_dirs := numpyInclude
    install_requires := ["Cython", "torch", "geoopt", "numpy"] }

end Setup

namespace Riemann

/-- The configuration entries consumed by the `embed` command
(`embed_experiment.py` lines 49-69 give the defaults; every entry is
overridable, so the model quantifies over them).  Numeric hyperparameters
that the orchestration code only passes along are carried as rationals. -/
structure Config where
  n_epochs : Nat
  dimension : Nat
  manifold_name : String
  eval_every : Nat
  gpu : Int
  train_threads : Nat
  submanifold_names : List String
  double_precision : Bool
  submanifold_shapes : List (List Nat)
  learning_rate : Nat
  sparse : Bool
  burnin_num : Int
  burnin_lr_mult : ℚ
  burnin_neg_multiplier : ℚ
  tboard_dir : String
  deriving DecidableEq, Repr

/-- The dataset object returned by `load_dataset`; only the field the
launcher touches (`neg_multiplier`) and the object count it reads are
modelled. -/
structure Data where
  neg_multiplier : ℚ
  num_objects : Nat
  deriving DecidableEq, Repr

/-- The device string of line 91: cuda with the gpu index when the index
is nonnegative, else cpu. -/
def deviceStr (gpu : Int) : String :=
  if gpu ≥ 0 then "cuda:" ++ toString gpu else "cpu"

/-- The maximum size the log queue is created with on line 94:
`mp.Queue()` passes no `maxsize`, and in Python an absent or non-positive
`maxsize` means the queue is infinite; `none` models that absence. -/
def log_queue_maxsize : Option Nat := none

/-- Whether the log queue of `embed` was created with a finite maximum
size. -/
def log_queue_is_bounded : Prop := log_queue_maxsize.isSome = true

/-- One positional element of the argument list built for `train` on lines
132 and 147.  Opaque objects (model, data, optimizer, shared params, queue,
logger) are modelled by nullary constructors since the launcher passes the
same object to every worker. -/
inductive ArgVal
  | device (d : String)
  | model
  | data
  | optimizer
  | nEpochs (n : Nat)
  | evalEvery (n : Nat)
  | learningRate (n : Nat)
  | burninNum (n : Int)
  | burninLrMult (q : ℚ)
  | sharedParams
  | threadIdx (i : Nat)
  | tboardDir (s : String)
  | logQueue
  | logger
  deriving DecidableEq, Repr

/-- The argument list `args` built for worker `i` (line 132; line 147 is the
same list with `i = 0`). -/
def mkTrainArgs (cfg : Config) (i : Nat) : List ArgVal :=
  [ArgVal.device (deviceStr cfg.gpu), ArgVal.model, ArgVal.data,
   ArgVal.optimizer, ArgVal.nEpochs cfg.n_epochs,
   ArgVal.evalEvery cfg.eval_every, ArgVal.learningRate cfg.learning_rate,
   ArgVal.burninNum cfg.burnin_num, ArgVal.burninLrMult cfg.burnin_lr_mult,
   ArgVal.sharedParams, ArgVal.threadIdx i, ArgVal.tboardDir cfg.tboard_dir,
   ArgVal.logQueue, ArgVal.logger]

/-- The elements of the `train` argument list that precede the worker index
(positions 0-9 of line 132); they do not depend on the worker. -/
def argsBeforeIdx (cfg : Config) : List ArgVal :=
  [ArgVal.device (deviceStr cfg.gpu), ArgVal.model, ArgVal.data,
   ArgVal.optimizer, ArgVal.nEpochs cfg.n_epochs,
   ArgVal.evalEvery cfg.eval_every, ArgVal.learningRate cfg.learning_rate,
   ArgVal.burninNum cfg.burnin_num, ArgVal.burninLrMult cfg.burnin_lr_mult,
   ArgVal.sharedParams]

/-- The elements of the `train` argument list that follow the worker index
(positions 11-13 of line 132); they do not depend on the worker. -/
def argsAfterIdx (cfg : Config) : List ArgVal :=
  [ArgVal.tboardDir cfg.tboard_dir, ArgVal.logQueue, ArgVal.logger]

/-- An `mp.Process` object as constructed on line 133: its worker index, its
target function (by name) and its argument list. -/
structure Proc where
  idx : Nat
  target : String
  args : List ArgVal
  deriving DecidableEq, Repr

/-- The observable actions `embed` performs, in program order. -/
inductive Event
  | loadDataset (burnin : Bool)
  | setNegMultiplier (v : ℚ)
  | setNumThreads (n : Nat)
  | createQueue (maxsize : Option Nat)
  | initEval (tboardDir : String)
  | setSharingStrategy (s : String)
  | shareMemory
  | toDevice (d : String)
  | toDouble
  | toFloat
  | applyInit
  | projx (noGrad : Bool)
  | mkOptimizer (lr : Nat)
  | processStart (i : Nat)
  | processJoin (i : Nat)
  | processClose (i : Nat)
  | processTerminate (i : Nat)
  | closeEvalThread (wait : Bool)
  | trainCall (i : Nat)
  | logInfo (msg : String)
  deriving DecidableEq, Repr

/-- Which of the external calls made by `embed` raise an exception.  The
calls the launcher makes no attempt to guard (dataset loading, model
construction, …) are not in the model: an exception there aborts `embed`
before the code under verification runs.  `Process.terminate` (a bare
signal) is modelled as never raising. -/
structure FailureModel where
  start_fail : Nat → Bool
  join_fail : Nat → Bool
  close_fail : Nat → Bool
  train_fail : Bool

/-- The failure model in which every external call succeeds. -/
def noFail : FailureModel :=
  { start_fail := fun _ => false
    join_fail := fun _ => false
    close_fail := fun _ => false
    train_fail := false }

/-- The spawn loop of lines 131-134: for each `i` a process is constructed
and appended to `threads`, then started.  Returns the processes appended,
the events, and whether a `start` raised (which aborts the loop; the
process whose start raised was already appended). -/
def startLoop (cfg : Config) (fail : FailureModel) :
    List Nat → List Proc × List Event × Bool
  | [] => ([], [], false)
  | i :: rest =>
    let p : Proc := ⟨i, "train", mkTrainArgs cfg i⟩
    if fail.start_fail i then ([p], [], true)
    else
      let r := startLoop cfg fail rest
      (p :: r.1, Event.processStart i :: r.2.1, r.2.2)

/-- The join loop of lines 136-137 over the spawned processes; a raising
`join` aborts the loop. -/
def joinLoop (fail : FailureModel) : List Proc → List Event × Bool
  | [] => ([], false)
  | p :: rest =>
    if fail.join_fail p.idx then ([], true)
    else
      let r := joinLoop fail rest
      (Event.processJoin p.idx :: r.1, r.2)

/-- The cleanup loop of lines 139-143: each process is closed; if `close`
raises, the bare `except` catches it and the process is terminated
instead. -/
def closeLoop (fail : FailureModel) : List Proc → List Event
  | [] => []
  | p :: rest =>
    (if fail.close_fail p.idx then Event.processTerminate p.idx
     else Event.processClose p.idx) :: closeLoop fail rest

/-- The events of `embed` up to and including the optimizer construction
(lines 87-126), before any training worker runs. -/
def preEvents (cfg : Config) : List Event :=
  [Event.loadDataset (decide (cfg.burnin_num > 0))]
  ++ (if cfg.burnin_num > 0 then [Event.setNegMultiplier cfg.burnin_neg_multiplier] else [])
  ++ [Event.setNumThreads 1, Event.createQueue log_queue_maxsize,
      Event.initEval cfg.tboard_dir]
  ++ (if 1 < cfg.train_threads then
        [Event.setSharingStrategy "file_system", Event.shareMemory] else [])
  ++ [Event.toDevice (deviceStr cfg.gpu)]
  ++ (if cfg.double_precision then [Event.toDouble] else [Event.toFloat])
  ++ [Event.applyInit, Event.projx true, Event.mkOptimizer cfg.learning_rate]

/-- The part of `preEvents` that precedes the weight initialization of
lines 115-117 (everything from `load_dataset` through the dtype cast). -/
def setupEvents (cfg : Config) : List Event :=
  [Event.loadDataset (decide (cfg.burnin_num > 0))]
  ++ (if cfg.burnin_num > 0 then [Event.setNegMultiplier cfg.burnin_neg_multiplier] else [])
  ++ [Event.setNumThreads 1, Event.createQueue log_queue_maxsize,
      Event.initEval cfg.tboard_dir]
  ++ (if 1 < cfg.train_threads then
        [Event.setSharingStrategy "file_system", Event.shareMemory] else [])
  ++ [Event.toDevice (deviceStr cfg.gpu)]
  ++ (if cfg.double_precision then [Event.toDouble] else [Event.toFloat])

/-- The multi-process branch, lines 129-144: spawn, join, and in `finally`
close (or terminate) every spawned process and close the evaluation thread.
Returns the spawned processes, the events, and whether an exception
propagates (the `finally` body itself never raises: `close` failures are
caught and `terminate` does not raise). -/
def multiRun (cfg : Config) (fail : FailureModel) :
    List Proc × List Event × Bool :=
  let s := startLoop cfg fail (List.range cfg.train_threads)
  let j := if s.2.2 then ([], false) else joinLoop fail s.1
  (s.1,
   s.2.1 ++ j.1 ++ closeLoop fail s.1 ++ [Event.closeEvalThread true],
   s.2.2 || j.2)

/-- The single-process branch, lines 146-151: `train` runs in the parent
with worker index 0, and `finally` closes the evaluation thread. -/
def singleRun (fail : FailureModel) : List Event × Bool :=
  ([Event.trainCall 0, Event.closeEvalThread true], fail.train_fail)

/-- The result of running `embed`: the event trace, the worker processes
spawned, whether an exception propagates out, and the dataset state. -/
structure EmbedResult where
  events : List Event
  procs : List Proc
  raised : Bool
  data : Data

/-- The `embed` command (`embed_experiment.py` lines 85-156).  `data0` is
the dataset `load_dataset` returns and `msgs` the messages sitting in the
log queue when the drain loop of lines 154-156 runs; the drain loop is
reached only when no exception propagates. -/
def embed (cfg : Config) (fail : FailureModel) (data0 : Data)
    (msgs : List String) : EmbedResult :=
  let data :=
    if cfg.burnin_num > 0 then
      { data0 with neg_multiplier := cfg.burnin_neg_multiplier }
    else data0
  let body :=
    if 1 < cfg.train_threads then multiRun cfg fail
    else ([], singleRun fail)
  { events := preEvents cfg ++ body.2.1
      ++ (if body.2.2 then [] else msgs.map Event.logInfo)
    procs := body.1
    raised := body.2.2
    data := data }

/-- A concrete timestamp used to evaluate the model on concrete inputs. -/
def nowEx : DateTime := ⟨10, 12, 2026, 1, 2, 3⟩

/-- The default configuration of the `config` function, lines 51-69, with
the default `tensorboard_dir` evaluated at `nowEx`. -/
def cfgEx : Config :=
  { n_epochs := 200
    dimension := 50
    manifold_name := "Product"
    eval_every := 20
    gpu := -1
    train_threads := 5
    submanifold_names := ["PoincareBall", "PoincareBall", "Euclidean"]
    double_precision := true
    submanifold_shapes := [[15], [15], [20]]
    learning_rate := 1
    sparse := true
    burnin_num := 10
    burnin_lr_mult := 1 / 100
    burnin_neg_multiplier := 1 / 10
    tboard_dir := tensorboard_dir "Product" 50 1
      ["PoincareBall", "PoincareBall", "Euclidean"] nowEx }

/-- A concrete dataset state used to evaluate the model. -/
def dataEx : Data := ⟨5, 10⟩

/-- The default configuration restricted to a single training thread. -/
def cfgEx1 : Config := { cfgEx with train_threads := 1 }

/-- A failure model in which closing worker process 1 raises. -/
def failCloseEx : FailureModel :=
  { start_fail := fun _ => false
    join_fail := fun _ => false
    close_fail := fun i => i == 1
    train_fail := false }

/-- A failure model in which the training routine raises. -/
def failTrainEx : FailureModel :=
  { start_fail := fun _ => false
    join_fail := fun _ => false
    close_fail := fun _ => false
    train_fail := true }

end Riemann

namespace Riemann

theorem startLoop_ok (cfg : Config) (fail : FailureModel)
    (hs : ∀ i, fail.start_fail i = false) (l : List Nat) :
    startLoop cfg fail l =
      (l.map fun i => Proc.mk i "train" (mkTrainArgs cfg i),
       l.map Event.processStart, false) := by
  induction l with
  | nil => rfl
  | cons i rest ih => simp [startLoop, hs i, ih]

theorem joinLoop_ok (fail : FailureModel)
    (hj : ∀ i, fail.join_fail i = false) (ps : List Proc) :
    joinLoop fail ps = (ps.map fun p => Event.processJoin p.idx, false) := by
  induction ps with
  | nil => rfl
  | cons p rest ih => simp [joinLoop, hj p.idx, ih]

theorem joinLoop_raised (fail : FailureModel) (ps : List Proc) :
    (joinLoop fail ps).2 = ps.any fun p => fail.join_fail p.idx := by
  induction ps with
  | nil => rfl
  | cons p rest ih =>
    by_cases h : fail.join_fail p.idx <;> simp [joinLoop, h, ih]

theorem closeLoop_eq_map (fail : FailureModel) (ps : List Proc) :
    closeLoop fail ps = ps.map fun p =>
      if fail.close_fail p.idx then Event.processTerminate p.idx
      else Event.processClose p.idx := by
  induction ps with
  | nil => rfl
  | cons p rest ih => simp [closeLoop, ih]

theorem preEvents_decomp (cfg : Config) :
    preEvents cfg = setupEvents cfg
      ++ [Event.applyInit, Event.projx true, Event.mkOptimizer cfg.learning_rate] := by
  simp [preEvents, setupEvents]

/-- Full trace of the multi-process branch when every `start` and `join`
succeeds (the `close` calls may still fail). -/
theorem embed_multi_ok (cfg : Config) (fail : FailureModel) (data0 : Data)
    (msgs : List String) (h : 1 < cfg.train_threads)
    (hs : ∀ i, fail.start_fail i = false)
    (hj : ∀ i, fail.join_fail i = false) :
    (embed cfg fail data0 msgs).events =
      preEvents cfg
        ++ (List.range cfg.train_threads).map Event.processStart
        ++ (List.range cfg.train_threads).map Event.processJoin
        ++ (List.range cfg.train_threads).map (fun i =>
              if fail.close_fail i then Event.processTerminate i
              else Event.processClose i)
        ++ [Event.closeEvalThread true]
        ++ msgs.map Event.logInfo
    ∧ (embed cfg fail data0 msgs).procs =
        (List.range cfg.train_threads).map (fun i => Proc.mk i "train" (mkTrainArgs cfg i))
    ∧ (embed cfg fail data0 msgs).raised = false := by
  simp [embed, multiRun, h, startLoop_ok cfg fail hs, joinLoop_ok fail hj,
    closeLoop_eq_map, List.map_map, Function.comp_def]

theorem startLoop_events_shape (cfg : Config) (fail : FailureModel) :
    ∀ l, ∀ e ∈ (startLoop cfg fail l).2.1, ∃ i, e = Event.processStart i := by
  intro l
  induction l with
  | nil => intro e he; simp [startLoop] at he
  | cons i rest ih =>
    intro e he
    by_cases h : fail.start_fail i
    · simp [startLoop, h] at he
    · simp only [startLoop, h, Bool.false_eq_true, if_false, List.mem_cons] at he
      rcases he with rfl | he
      · exact ⟨i, rfl⟩
      · exact ih e he

theorem joinLoop_events_shape (fail : FailureModel) :
    ∀ ps, ∀ e ∈ (joinLoop fail ps).1, ∃ i, e = Event.processJoin i := by
  intro ps
  induction ps with
  | nil => intro e he; simp [joinLoop] at he
  | cons p rest ih =>
    intro e he
    by_cases h : fail.join_fail p.idx
    · simp [joinLoop, h] at he
    · simp only [joinLoop, h, Bool.false_eq_true, if_false, List.mem_cons] at he
      rcases he with rfl | he
      · exact ⟨p.idx, rfl⟩
      · exact ih e he

theorem closeLoop_events_shape (fail : FailureModel) :
    ∀ ps, ∀ e ∈ closeLoop fail ps,
      ∃ i, e = Event.processClose i ∨ e = Event.processTerminate i := by
  intro ps
  induction ps with
  | nil => intro e he; simp [closeLoop] at he
  | cons p rest ih =>
    intro e he
    simp only [closeLoop, List.mem_cons] at he
    rcases he with rfl | he
    · by_cases h : fail.close_fail p.idx
      · exact ⟨p.idx, Or.inr (by simp [h])⟩
      · exact ⟨p.idx, Or.inl (by simp [h])⟩
    · exact ih e he

/-- Every event emitted by the multi-process branch is a process
start/join/close/terminate or the closing of the evaluation thread. -/
theorem multiRun_events_shape (cfg : Config) (fail : FailureModel) :
    ∀ e ∈ (multiRun cfg fail).2.1,
      (∃ i, e = Event.processStart i ∨ e = Event.processJoin i
        ∨ e = Event.processClose i ∨ e = Event.processTerminate i)
      ∨ e = Event.closeEvalThread true := by
  intro e he
  simp only [multiRun, List.mem_append, List.mem_singleton] at he
  rcases he with ((h | h) | h) | h
  · rcases startLoop_events_shape cfg fail _ e h with ⟨i, hi⟩
    exact Or.inl ⟨i, Or.inl hi⟩
  · split at h
    · simp at h
    · rcases joinLoop_events_shape fail _ e h with ⟨i, hi⟩
      exact Or.inl ⟨i, Or.inr (Or.inl hi)⟩
  · rcases closeLoop_events_shape fail _ e h with ⟨i, hi⟩
    rcases hi with hi | hi
    · exact Or.inl ⟨i, Or.inr (Or.inr (Or.inl hi))⟩
    · exact Or.inl ⟨i, Or.inr (Or.inr (Or.inr hi))⟩
  · exact Or.inr h

/-- The `finally` of the multi-process branch always closes the evaluation
thread. -/
theorem closeEval_mem_multiRun (cfg : Config) (fail : FailureModel) :
    Event.closeEvalThread true ∈ (multiRun cfg fail).2.1 := by
  simp [multiRun, List.mem_append]

/-- The `finally` of the multi-process branch closes every spawned process,
terminating it instead when `close` raises. -/
theorem close_mem_multiRun (cfg : Config) (fail : FailureModel) :
    ∀ p ∈ (multiRun cfg fail).1,
      (if fail.close_fail p.idx then Event.processTerminate p.idx
       else Event.processClose p.idx) ∈ (multiRun cfg fail).2.1 := by
  intro p hp
  have h1 : (if fail.close_fail p.idx then Event.processTerminate p.idx
      else Event.processClose p.idx)
      ∈ closeLoop fail (multiRun cfg fail).1 := by
    rw [closeLoop_eq_map]
    exact List.mem_map_of_mem _ hp
  simp only [multiRun] at h1 ⊢
  simp only [List.mem_append]
  tauto

/-- The single-process branch, fully characterized. -/
theorem embed_single (cfg : Config) (fail : FailureModel) (data0 : Data)
    (msgs : List String) (h : cfg.train_threads ≤ 1) :
    (embed cfg fail data0 msgs).events =
        preEvents cfg ++ [Event.trainCall 0, Event.closeEvalThread true]
          ++ (if fail.train_fail then [] else msgs.map Event.logInfo)
      ∧ (embed cfg fail data0 msgs).procs = []
      ∧ (embed cfg fail data0 msgs).raised = fail.train_fail := by
  have hn : ¬ 1 < cfg.train_threads := by omega
  simp [embed, hn, singleRun]

theorem joinLoop_raised_procs (cfg : Config) (fail : FailureModel)
    (l : List Nat) :
    (joinLoop fail (l.map fun i => Proc.mk i "train" (mkTrainArgs cfg i))).2
      = l.any fail.join_fail := by
  induction l with
  | nil => rfl
  | cons i rest ih => by_cases h : fail.join_fail i <;> simp [joinLoop, h, ih]

/-- When no `start` raises, the propagated exception of the multi-process
branch is exactly "some join raised". -/
theorem embed_multi_raised (cfg : Config) (fail : FailureModel) (data0 : Data)
    (msgs : List String) (h : 1 < cfg.train_threads)
    (hs : ∀ i, fail.start_fail i = false) :
    (embed cfg fail data0 msgs).raised
      = (List.range cfg.train_threads).any fail.join_fail := by
  simp [embed, h, multiRun, startLoop_ok cfg fail hs, joinLoop_raised_procs]

theorem closeEval_mem_embed (cfg : Config) (fail : FailureModel)
    (data0 : Data) (msgs : List String) :
    Event.closeEvalThread true ∈ (embed cfg fail data0 msgs).events := by
  by_cases h : 1 < cfg.train_threads
  · have := closeEval_mem_multiRun cfg fail
    simp [embed, h, List.mem_append]
    tauto
  · simp [embed, h, singleRun, List.mem_append]

theorem processStart_not_mem_preEvents (cfg : Config) (i : Nat) :
    Event.processStart i ∉ preEvents cfg := by
  by_cases h1 : cfg.burnin_num > 0 <;> by_cases h2 : 1 < cfg.train_threads <;>
    by_cases h3 : cfg.double_precision <;> simp [preEvents, h1, h2, h3]

theorem setupEvents_no_worker (cfg : Config) (i : Nat) :
    Event.processStart i ∉ setupEvents cfg ∧ Event.trainCall i ∉ setupEvents cfg := by
  by_cases h1 : cfg.burnin_num > 0 <;> by_cases h2 : 1 < cfg.train_threads <;>
    by_cases h3 : cfg.double_precision <;> simp [setupEvents, h1, h2, h3]

theorem createQueue_mem_embed (cfg : Config) (fail : FailureModel)
    (data0 : Data) (msgs : List String) :
    Event.createQueue log_queue_maxsize ∈ (embed cfg fail data0 msgs).events := by
  have hpre : Event.createQueue log_queue_maxsize ∈ preEvents cfg := by
    by_cases hb : cfg.burnin_num > 0 <;> simp [preEvents, hb]
  simp [embed, List.mem_append]
  tauto

theorem loadDataset_mem_embed (cfg : Config) (fail : FailureModel)
    (data0 : Data) (msgs : List String) :
    Event.loadDataset (decide (cfg.burnin_num > 0)) ∈ (embed cfg fail data0 msgs).events := by
  have hpre : Event.loadDataset (decide (cfg.burnin_num > 0)) ∈ preEvents cfg := by
    by_cases hb : cfg.burnin_num > 0 <;> simp [preEvents, hb]
  simp [embed, List.mem_append]
  tauto

/-- A `neg_multiplier` assignment appears in the trace exactly when burn-in
is configured, and then only with the configured burn-in value. -/
theorem setNeg_mem_embed_iff (cfg : Config) (fail : FailureModel)
    (data0 : Data) (msgs : List String) (v : ℚ) :
    Event.setNegMultiplier v ∈ (embed cfg fail data0 msgs).events
      ↔ (cfg.burnin_num > 0 ∧ v = cfg.burnin_neg_multiplier) := by
  constructor
  · intro hmem
    simp only [embed, List.mem_append] at hmem
    rcases hmem with (hpre | hbody) | hdrain
    · by_cases hb : cfg.burnin_num > 0
      · by_cases ht2 : 1 < cfg.train_threads <;> by_cases hd : cfg.double_precision <;>
          simp [preEvents, hb, ht2, hd] at hpre <;> exact ⟨hb, hpre⟩
      · by_cases ht2 : 1 < cfg.train_threads <;> by_cases hd : cfg.double_precision <;>
          simp [preEvents, hb, ht2, hd] at hpre
    · by_cases ht : 1 < cfg.train_threads
      · simp only [ht, if_true] at hbody
        rcases multiRun_events_shape cfg fail _ hbody with ⟨i, hi⟩ | hi
        · rcases hi with hi | hi | hi | hi <;> cases hi
        · cases hi
      · simp [ht, singleRun] at hbody
    · split at hdrain
      · simp at hdrain
      · simp at hdrain
  · rintro ⟨hb, rfl⟩
    have hpre : Event.setNegMultiplier cfg.burnin_neg_multiplier ∈ preEvents cfg := by
      simp [preEvents, hb]
    simp [embed, List.mem_append]
    tauto

end Riemann

open Riemann Setup

/-- C6: `get_embed_manifold` maps `"Euclidean"` to the Euclidean manifold,
`"PoincareBall"` to the Poincaré ball, `"Sphere"` to the sphere, and for
`"Product"` it returns a product manifold assembled by recursively applying
itself to each name of `submanifold_names`, in order, paired with the
`submanifold_shapes` array. -/
theorem C6_manifold_builder (names : List String) (shapes : List (List Nat))
    (fuel : Nat) :
    get_embed_manifold (fuel + 1) "Euclidean" names shapes
        = some (some Manifold.euclidean)
    ∧ get_embed_manifold (fuel + 1) "PoincareBall" names shapes
        = some (some Manifold.poincareBall)
    ∧ get_embed_manifold (fuel + 1) "Sphere" names shapes
        = some (some Manifold.sphere)
    ∧ get_embed_manifold (fuel + 1) "Product" names shapes
        = (names.mapM (fun n => get_embed_manifold fuel n names shapes)).map
            (fun subs => some (Manifold.product subs shapes)) := by
  refine ⟨rfl, rfl, rfl, ?_⟩
  have hred : get_embed_manifold (fuel + 1) "Product" names shapes
      = match names.mapM (fun n => get_embed_manifold fuel n names shapes) with
        | none => none
        | some subs => some (some (Manifold.product subs shapes)) := rfl
  rw [hred]
  cases names.mapM (fun n => get_embed_manifold fuel n names shapes) <;> rfl

/-- C9: for any manifold name other than the four recognized ones,
`get_embed_manifold` returns `None` (modelled `some none`: the call
terminates and yields the Python value `None`) instead of raising. -/
theorem C9_unknown_manifold (name : String) (names : List String)
    (shapes : List (List Nat)) (fuel : Nat)
    (h1 : name ≠ "Euclidean") (h2 : name ≠ "PoincareBall")
    (h3 : name ≠ "Sphere") (h4 : name ≠ "Product") :
    get_embed_manifold (fuel + 1) name names shapes = some none := by
  simp [get_embed_manifold, h1, h2, h3, h4]

/-- Witness for C9 at the concrete unrecognized name `"Lorentz"`. -/
theorem C9_unknown_manifold_witness :
    "Lorentz" ≠ "Euclidean" ∧ "Lorentz" ≠ "PoincareBall"
      ∧ "Lorentz" ≠ "Sphere" ∧ "Lorentz" ≠ "Product"
      ∧ get_embed_manifold 1 "Lorentz" ["Euclidean"] [[2]] = some none :=
  ⟨by decide, by decide, by decide, by decide,
    C9_unknown_manifold "Lorentz" ["Euclidean"] [[2]] 0
      (by decide) (by decide) (by decide) (by decide)⟩

/-- C8: the build script defines exactly one native extension, named
`data.graph_dataset`, built from `data/graph_dataset.pyx` as C++ with
`-std=c++11`, cythonized and passed to `setup` together with the `riemann`
package. -/
theorem C8_native_extension (appleLLVM : Bool) (inc : String) :
    Setup.extensions appleLLVM inc
        = [{ name := "data.graph_dataset"
             sources := ["data/graph_dataset.pyx"]
             include_dirs := [inc, "."]
             extra_compile_args := Setup.extra_compile_args appleLLVM
             language := "c++" }]
    ∧ "-std=c++11" ∈ Setup.extra_compile_args appleLLVM
    ∧ (Setup.setup_call appleLLVM inc).ext_modules
        = Setup.cythonize (Setup.extensions appleLLVM inc)
    ∧ (Setup.setup_call appleLLVM inc).packages = ["riemann"] :=
  ⟨rfl, by simp [Setup.extra_compile_args], rfl, rfl⟩

/-- C5: run artifacts are stored through a file-storage observer on the
`"experiments"` directory, and `tensorboard_dir` starts with `"runs/"`,
contains the manifold name, the dimension and the learning rate, contains
the comma-joined submanifold names when the manifold name is `"Product"`,
and ends with the timestamp formatted as `-%m:%d:%Y-%H:%M:%S`. -/
theorem C5_run_naming (mn : String) (d lr : Nat) (subs : List String)
    (now : DateTime) :
    ex_observers = [Observer.fileStorage "experiments"]
    ∧ (∃ r, tensorboard_dir mn d lr subs now = "runs/" ++ r)
    ∧ strContains (tensorboard_dir mn d lr subs now) mn
    ∧ strContains (tensorboard_dir mn d lr subs now) (toString d)
    ∧ strContains (tensorboard_dir mn d lr subs now) (toString lr)
    ∧ (mn = "Product" →
        strContains (tensorboard_dir mn d lr subs now)
          (String.intercalate "," subs))
    ∧ (∃ a, tensorboard_dir mn d lr subs now = a ++ strftimeRun now) := by
  by_cases hp : mn = "Product"
  · refine ⟨rfl,
      ⟨mn ++ "-" ++ toString d ++ "D-LR" ++ toString lr ++ "-Subs["
        ++ String.intercalate "," subs ++ "]" ++ strftimeRun now, ?_⟩,
      ⟨"runs/", "-" ++ toString d ++ "D-LR" ++ toString lr ++ "-Subs["
        ++ String.intercalate "," subs ++ "]" ++ strftimeRun now, ?_⟩,
      ⟨"runs/" ++ mn ++ "-", "D-LR" ++ toString lr ++ "-Subs["
        ++ String.intercalate "," subs ++ "]" ++ strftimeRun now, ?_⟩,
      ⟨"runs/" ++ mn ++ "-" ++ toString d ++ "D-LR", "-Subs["
        ++ String.intercalate "," subs ++ "]" ++ strftimeRun now, ?_⟩,
      fun _ => ⟨"runs/" ++ mn ++ "-" ++ toString d ++ "D-LR" ++ toString lr
        ++ "-Subs[", "]" ++ strftimeRun now, ?_⟩,
      ⟨"runs/" ++ mn ++ "-" ++ toString d ++ "D-LR" ++ toString lr
        ++ "-Subs[" ++ String.intercalate "," subs ++ "]", ?_⟩⟩ <;>
    (simp [tensorboard_dir, hp, String.append_assoc]; try rfl)
  · refine ⟨rfl,
      ⟨mn ++ "-" ++ toString d ++ "D-LR" ++ toString lr ++ strftimeRun now, ?_⟩,
      ⟨"runs/", "-" ++ toString d ++ "D-LR" ++ toString lr ++ strftimeRun now, ?_⟩,
      ⟨"runs/" ++ mn ++ "-", "D-LR" ++ toString lr ++ strftimeRun now, ?_⟩,
      ⟨"runs/" ++ mn ++ "-" ++ toString d ++ "D-LR", strftimeRun now, ?_⟩,
      fun h => absurd h hp,
      ⟨"runs/" ++ mn ++ "-" ++ toString d ++ "D-LR" ++ toString lr, ?_⟩⟩ <;>
    (simp [tensorboard_dir, hp, String.append_assoc]; try rfl)

/-- Witness for C5 at the default configuration values. -/
theorem C5_run_naming_witness :
    ("Product" = "Product" →
      strContains
        (tensorboard_dir "Product" 50 1
          ["PoincareBall", "PoincareBall", "Euclidean"] nowEx)
        (String.intercalate "," ["PoincareBall", "PoincareBall", "Euclidean"]))
    ∧ strContains
        (tensorboard_dir "Product" 50 1
          ["PoincareBall", "PoincareBall", "Euclidean"] nowEx) "Product" :=
  ⟨fun _ => ((C5_run_naming "Product" 50 1
      ["PoincareBall", "PoincareBall", "Euclidean"] nowEx).2.2.2.2.2.1 rfl),
   (C5_run_naming "Product" 50 1
      ["PoincareBall", "PoincareBall", "Euclidean"] nowEx).2.2.1⟩

/-- C7: `embed` passes `burnin=True` to `load_dataset` exactly when
`burnin_num > 0`, and exactly in that case overwrites the `neg_multiplier`
of the dataset with `burnin_neg_multiplier`; otherwise the dataset is left
unchanged. -/
theorem C7_burnin_dataset (cfg : Config) (fail : FailureModel) (data0 : Data)
    (msgs : List String) :
    Event.loadDataset (decide (cfg.burnin_num > 0))
        ∈ (embed cfg fail data0 msgs).events
    ∧ (embed cfg fail data0 msgs).data.neg_multiplier
        = (if cfg.burnin_num > 0 then cfg.burnin_neg_multiplier
           else data0.neg_multiplier)
    ∧ (∀ v, Event.setNegMultiplier v ∈ (embed cfg fail data0 msgs).events
        ↔ (cfg.burnin_num > 0 ∧ v = cfg.burnin_neg_multiplier))
    ∧ (¬ cfg.burnin_num > 0 → (embed cfg fail data0 msgs).data = data0) := by
  refine ⟨loadDataset_mem_embed cfg fail data0 msgs, ?_,
    setNeg_mem_embed_iff cfg fail data0 msgs, ?_⟩
  · by_cases hb : cfg.burnin_num > 0 <;> simp [embed, hb]
  · intro hb
    simp [embed, hb]

/-- Witness for C7: with the default burn-in (`burnin_num = 10 > 0`) the
`neg_multiplier` of the dataset is overwritten and the assignment is
traced. -/
theorem C7_burnin_dataset_witness :
    cfgEx.burnin_num > 0
    ∧ (embed cfgEx noFail dataEx []).data.neg_multiplier
        = cfgEx.burnin_neg_multiplier
    ∧ Event.setNegMultiplier cfgEx.burnin_neg_multiplier
        ∈ (embed cfgEx noFail dataEx []).events :=
  ⟨by decide,
   ((C7_burnin_dataset cfgEx noFail dataEx []).2.1).trans
     (if_pos (by decide)),
   ((C7_burnin_dataset cfgEx noFail dataEx []).2.2.1
       cfgEx.burnin_neg_multiplier).2 ⟨by decide, rfl⟩⟩

/-- C4: on every execution path of `embed` — either branch, any failure
combination — `embed_eval.close_thread(wait_to_finish=True)` runs; a
`train` failure in the single-process branch propagates uncaught, and with
all starts succeeding the multi-process branch propagates exactly the join
failures. -/
theorem C4_finally_closes_eval (cfg : Config) (fail : FailureModel)
    (data0 : Data) (msgs : List String) :
    Event.closeEvalThread true ∈ (embed cfg fail data0 msgs).events
    ∧ (cfg.train_threads ≤ 1 →
        (embed cfg fail data0 msgs).raised = fail.train_fail)
    ∧ (1 < cfg.train_threads → (∀ i, fail.start_fail i = false) →
        (embed cfg fail data0 msgs).raised
          = (List.range cfg.train_threads).any fail.join_fail) :=
  ⟨closeEval_mem_embed cfg fail data0 msgs,
   fun h => (embed_single cfg fail data0 msgs h).2.2,
   fun h hs => embed_multi_raised cfg fail data0 msgs h hs⟩

/-- Witness for C4: a single-thread run whose `train` raises still closes
the evaluation thread, and the exception propagates. -/
theorem C4_finally_closes_eval_witness :
    cfgEx1.train_threads ≤ 1
    ∧ Event.closeEvalThread true ∈ (embed cfgEx1 failTrainEx dataEx []).events
    ∧ (embed cfgEx1 failTrainEx dataEx []).raised = failTrainEx.train_fail :=
  ⟨by decide,
   (C4_finally_closes_eval cfgEx1 failTrainEx dataEx []).1,
   (C4_finally_closes_eval cfgEx1 failTrainEx dataEx []).2.1 (by decide)⟩

/-- C3 counterexample: the log queue of `embed` is created by `mp.Queue()`
with no `maxsize`, i.e. with no finite maximum size, so the claim that it
is bounded is false. -/
theorem C3_log_queue_counterexample : ¬ log_queue_is_bounded := by
  simp [log_queue_is_bounded, log_queue_maxsize]

/-- C3 (amended): the inter-process log queue is created **unbounded** (no
finite maximum size is passed), and after training the parent drains it,
logging every remaining message through the experiment logger. -/
theorem C3_log_queue_drain (cfg : Config) (data0 : Data)
    (msgs : List String) :
    log_queue_maxsize = none
    ∧ Event.createQueue log_queue_maxsize ∈ (embed cfg noFail data0 msgs).events
    ∧ (embed cfg noFail data0 msgs).raised = false
    ∧ ∀ m ∈ msgs, Event.logInfo m ∈ (embed cfg noFail data0 msgs).events := by
  have hraised : (embed cfg noFail data0 msgs).raised = false := by
    by_cases ht : 1 < cfg.train_threads
    · exact (embed_multi_ok cfg noFail data0 msgs ht (fun _ => rfl)
        (fun _ => rfl)).2.2
    · exact (embed_single cfg noFail data0 msgs (by omega)).2.2
  refine ⟨rfl, createQueue_mem_embed cfg noFail data0 msgs, hraised, ?_⟩
  intro m hm
  have hdr : Event.logInfo m ∈ (if (if 1 < cfg.train_threads
      then multiRun cfg noFail else ([], singleRun noFail)).2.2
      then ([] : List Event) else msgs.map Event.logInfo) := by
    by_cases ht : 1 < cfg.train_threads
    · have h2 : (multiRun cfg noFail).2.2 = false := by
        simpa [embed, ht] using hraised
      simp [ht, h2, List.mem_map]
      exact hm
    · simp [ht, singleRun, noFail, List.mem_map]
      exact hm
  simp only [embed, List.mem_append]
  by_cases ht : 1 < cfg.train_threads <;> simp [ht] at hdr ⊢ <;> tauto

/-- Witness for C3 (amended): a concrete message left in the queue is
re-logged by the parent. -/
theorem C3_log_queue_drain_witness :
    "epoch done" ∈ ["epoch done"]
    ∧ Event.logInfo "epoch done"
        ∈ (embed cfgEx noFail dataEx ["epoch done"]).events :=
  ⟨by simp,
   (C3_log_queue_drain cfgEx dataEx ["epoch done"]).2.2.2 "epoch done"
     (by simp)⟩

/-- C10: on every execution path, the model weights are initialized by
`apply_initialization` and then projected onto the manifold by
`manifold._projx` under `torch.no_grad` before any training worker is
started and before the in-parent `train` call. -/
theorem C10_init_before_training (cfg : Config) (fail : FailureModel)
    (data0 : Data) (msgs : List String) :
    ∃ B, (embed cfg fail data0 msgs).events
        = setupEvents cfg ++ Event.applyInit :: Event.projx true :: B
      ∧ (∀ i, Event.processStart i ∉ setupEvents cfg)
      ∧ (∀ i, Event.trainCall i ∉ setupEvents cfg) := by
  refine ⟨Event.mkOptimizer cfg.learning_rate ::
      ((if 1 < cfg.train_threads then multiRun cfg fail
        else ([], singleRun fail)).2.1
        ++ (if (if 1 < cfg.train_threads then multiRun cfg fail
            else ([], singleRun fail)).2.2 then []
            else msgs.map Event.logInfo)),
    ?_, fun i => (setupEvents_no_worker cfg i).1,
    fun i => (setupEvents_no_worker cfg i).2⟩
  simp only [embed, preEvents_decomp]
  simp [List.append_assoc]

/-- Witness for C10 at the default configuration. -/
theorem C10_init_before_training_witness :
    ∃ B, (embed cfgEx noFail dataEx []).events
        = setupEvents cfgEx ++ Event.applyInit :: Event.projx true :: B
      ∧ (∀ i, Event.processStart i ∉ setupEvents cfgEx)
      ∧ (∀ i, Event.trainCall i ∉ setupEvents cfgEx) :=
  C10_init_before_training cfgEx noFail dataEx []

/-- C1: with `train_threads > 1`, `embed` spawns exactly `train_threads`
processes, all with target `train` and all started after `share_memory` was
applied to the model; the per-worker argument lists are identical except at
the worker-index position (position 10).  With `train_threads <= 1` no
process is spawned and `train` is called in the parent process. -/
theorem C1_process_launch (cfg : Config) (data0 : Data) (msgs : List String) :
    (1 < cfg.train_threads →
      (embed cfg noFail data0 msgs).procs
          = (List.range cfg.train_threads).map
              (fun i => Proc.mk i "train" (mkTrainArgs cfg i))
        ∧ (∀ i, i < cfg.train_threads →
            Event.processStart i ∈ (embed cfg noFail data0 msgs).events)
        ∧ (∃ A B, (embed cfg noFail data0 msgs).events
              = A ++ Event.shareMemory :: B
            ∧ ∀ i, Event.processStart i ∉ A))
    ∧ (cfg.train_threads ≤ 1 →
        (embed cfg noFail data0 msgs).procs = []
        ∧ (∀ i, Event.processStart i ∉ (embed cfg noFail data0 msgs).events)
        ∧ Event.trainCall 0 ∈ (embed cfg noFail data0 msgs).events)
    ∧ (∀ i, mkTrainArgs cfg i
        = argsBeforeIdx cfg ++ ArgVal.threadIdx i :: argsAfterIdx cfg)
    ∧ (argsBeforeIdx cfg).length = 10 := by
  refine ⟨fun ht => ?_, fun h1 => ?_, fun i => rfl, rfl⟩
  · obtain ⟨hev, hpr, hra⟩ := embed_multi_ok cfg noFail data0 msgs ht
      (fun _ => rfl) (fun _ => rfl)
    refine ⟨hpr, ?_, ?_⟩
    · intro i hi
      rw [hev]
      have hS : Event.processStart i
          ∈ (List.range cfg.train_threads).map Event.processStart :=
        List.mem_map_of_mem _ (List.mem_range.2 hi)
      simp [List.mem_append]
      tauto
    · refine ⟨[Event.loadDataset (decide (cfg.burnin_num > 0))]
        ++ (if cfg.burnin_num > 0
            then [Event.setNegMultiplier cfg.burnin_neg_multiplier] else [])
        ++ [Event.setNumThreads 1, Event.createQueue log_queue_maxsize,
            Event.initEval cfg.tboard_dir,
            Event.setSharingStrategy "file_system"],
        [Event.toDevice (deviceStr cfg.gpu)]
        ++ (if cfg.double_precision then [Event.toDouble] else [Event.toFloat])
        ++ [Event.applyInit, Event.projx true,
            Event.mkOptimizer cfg.learning_rate]
        ++ (List.range cfg.train_threads).map Event.processStart
        ++ (List.range cfg.train_threads).map Event.processJoin
        ++ (List.range cfg.train_threads).map
            (fun i => if noFail.close_fail i then Event.processTerminate i
              else Event.processClose i)
        ++ [Event.closeEvalThread true]
        ++ msgs.map Event.logInfo, ?_, ?_⟩
      · rw [hev]
        simp [preEvents, ht, List.append_assoc]
      · intro i
        by_cases hb : cfg.burnin_num > 0 <;> simp [hb]
  · obtain ⟨hev, hpr, hra⟩ := embed_single cfg noFail data0 msgs h1
    refine ⟨hpr, ?_, ?_⟩
    · intro i
      rw [hev]
      simp [noFail, List.mem_append, List.mem_map]
      exact processStart_not_mem_preEvents cfg i
    · rw [hev]
      simp [List.mem_append]

/-- Witness for C1 at the default configuration (5 training threads). -/
theorem C1_process_launch_witness :
    1 < cfgEx.train_threads
    ∧ (embed cfgEx noFail dataEx []).procs
        = (List.range cfgEx.train_threads).map
            (fun i => Proc.mk i "train" (mkTrainArgs cfgEx i)) :=
  ⟨by decide, ((C1_process_launch cfgEx dataEx []).1 (by decide)).1⟩

/-- C2: in the multi-process branch every spawned worker process is joined;
then a `finally` block — running whether or not joining raised — closes each
spawned process, falling back to terminating it when `close` raises. -/
theorem C2_join_then_close (cfg : Config) (fail : FailureModel)
    (data0 : Data) (msgs : List String) (h : 1 < cfg.train_threads) :
    ((∀ i, fail.start_fail i = false) → (∀ i, fail.join_fail i = false) →
      (∀ i, i < cfg.train_threads →
        Event.processJoin i ∈ (embed cfg fail data0 msgs).events)
      ∧ ∃ A B, (embed cfg fail data0 msgs).events
            = A ++ ((List.range cfg.train_threads).map
                (fun i => if fail.close_fail i then Event.processTerminate i
                  else Event.processClose i)) ++ B
          ∧ ∀ i, i < cfg.train_threads → Event.processJoin i ∈ A)
    ∧ (∀ p ∈ (embed cfg fail data0 msgs).procs,
        (if fail.close_fail p.idx then Event.processTerminate p.idx
         else Event.processClose p.idx)
          ∈ (embed cfg fail data0 msgs).events) := by
  constructor
  · intro hs hj
    obtain ⟨hev, hpr, hra⟩ := embed_multi_ok cfg fail data0 msgs h hs hj
    constructor
    · intro i hi
      rw [hev]
      have hJ : Event.processJoin i
          ∈ (List.range cfg.train_threads).map Event.processJoin :=
        List.mem_map_of_mem _ (List.mem_range.2 hi)
      simp [List.mem_append]
      tauto
    · refine ⟨preEvents cfg
        ++ (List.range cfg.train_threads).map Event.processStart
        ++ (List.range cfg.train_threads).map Event.processJoin,
        [Event.closeEvalThread true] ++ msgs.map Event.logInfo, ?_, ?_⟩
      · rw [hev]
        simp [List.append_assoc]
      · intro i hi
        have hJ : Event.processJoin i
            ∈ (List.range cfg.train_threads).map Event.processJoin :=
          List.mem_map_of_mem _ (List.mem_range.2 hi)
        simp [List.mem_append]
        tauto
  · intro p hp
    have hp2 : p ∈ (multiRun cfg fail).1 := by
      simpa [embed, h] using hp
    have hcl := close_mem_multiRun cfg fail p hp2
    simp [embed, h, List.mem_append]
    tauto

/-- Witness for C2: with 5 workers and `close` of worker 1 raising, worker 1
is joined and then terminated. -/
theorem C2_join_then_close_witness :
    1 < cfgEx.train_threads
    ∧ Event.processJoin 1 ∈ (embed cfgEx failCloseEx dataEx []).events
    ∧ Event.processTerminate 1 ∈ (embed cfgEx failCloseEx dataEx []).events := by
  have hmain := C2_join_then_close cfgEx failCloseEx dataEx [] (by decide)
  have h1 := (hmain.1 (fun _ => rfl) (fun _ => rfl)).1 1 (by decide)
  have hpr := (embed_multi_ok cfgEx failCloseEx dataEx [] (by decide)
    (fun _ => rfl) (fun _ => rfl)).2.1
  have hp : Proc.mk 1 "train" (mkTrainArgs cfgEx 1)
      ∈ (embed cfgEx failCloseEx dataEx []).procs := by
    rw [hpr]
    exact List.mem_map_of_mem _ (List.mem_range.2 (by decide))
  have h2 := hmain.2 _ hp
  have h2t : Event.processTerminate 1
      ∈ (embed cfgEx failCloseEx dataEx []).events := by
    simpa [failCloseEx] using h2
  exact ⟨by decide, h1, h2t⟩
